import Mathlib

/-!
Verification development for the reward-lab chat bot core
(src/db/streakLogic.js, src/models/UserModel.js, src/index.js).

The JavaScript sources are shallowly embedded:
- timestamps are epoch milliseconds (`Int`), a nullable date is `Option Int`;
- JavaScript numbers that only ever hold integers are `Int`;
- strings are `List Char` (Unicode scalar values);
- the Mongoose document collection is a `List UserRec`, `findOne` and
  `save` are explicit list operations;
- the MongoDB sort used by `getLeaderboard` is modelled as a sort by the
  same descending composite key over the stored records.
-/

/-- Milliseconds in one UTC day, as written in the source
(`24 * 60 * 60 * 1000`). -/
def msPerDay : Int := 24 * 60 * 60 * 1000

/-- Embedding of `startOfUTCToday` from src/db/streakLogic.js: the source
rebuilds a date from the UTC year, month and day of `now`, which is
exactly flooring the epoch-millisecond clock to the UTC day boundary
(proleptic Gregorian calendar, no leap seconds in JavaScript time). -/
def startOfUTCDay (now : Int) : Int := msPerDay * (now.fdiv msPerDay)

/-- Embedding of `startOfUTCYesterday` from src/db/streakLogic.js:
start of today minus 24 hours. -/
def startOfUTCYesterday (now : Int) : Int := startOfUTCDay now - msPerDay

/-- Guard of the same-day branch in `updateUserStreakAndScore`
(src/db/streakLogic.js line 33): `user.lastActivityDate` is truthy and
`user.lastActivityDate.getTime() >= todayUTC.getTime()`. -/
def sameDayCheck (lastActivityDate : Option Int) (todayUTC : Int) : Bool :=
  match lastActivityDate with
  | some t => decide (todayUTC ≤ t)
  | none => false

/-- Decimal digit character, used to embed the implicit number-to-string
conversions of JavaScript template literals and `String(n)`. -/
def digitChar (d : Nat) : Char :=
  if d = 0 then '0' else if d = 1 then '1' else if d = 2 then '2'
  else if d = 3 then '3' else if d = 4 then '4' else if d = 5 then '5'
  else if d = 6 then '6' else if d = 7 then '7' else if d = 8 then '8'
  else '9'

/-- Fuelled most-significant-digit-first decimal rendering; the fuel is a
Lean technicality (any fuel above the digit count is enough). -/
def natDigitsAux : Nat → Nat → List Char
  | 0, _ => []
  | fuel + 1, n =>
    if n < 10 then [digitChar n]
    else natDigitsAux fuel (n / 10) ++ [digitChar (n % 10)]

/-- Decimal rendering of a natural number. -/
def natDigits (n : Nat) : List Char := natDigitsAux (n + 1) n

/-- Decimal rendering of an integer, as JavaScript `String(n)` renders an
integral number. -/
def intChars (i : Int) : List Char :=
  if i < 0 then '-' :: natDigits i.natAbs else natDigits i.toNat

/-- In-memory shape of a user document as the code reads and writes it:
the declared schema fields of src/models/UserModel.js (`chatId`,
`firstName`, `username`, `lastInteraction`, `dailyLastUsed`, `gameScore`,
`gameGuess`) together with the four fields that src/db/streakLogic.js and
the reset handler of src/index.js access on the document (`totalScore`,
`currentStreak`, `longestStreak`, `lastActivityDate`). Whether the
persisted schema actually declares those four is settled separately with
`userSchemaFields`. -/
structure UserRec where
  chatId : Int
  firstName : List Char
  username : Option (List Char)
  lastInteraction : Int
  dailyLastUsed : Option Int
  gameScore : Int
  gameGuess : Option Int
  totalScore : Int
  currentStreak : Int
  longestStreak : Int
  lastActivityDate : Option Int
deriving DecidableEq

/-- Success payload returned by `updateUserStreakAndScore`
(src/db/streakLogic.js): success flag, `newStreak`, `isNewDay`,
`scoreAdded` and the human-readable message. -/
structure StreakResult where
  success : Bool
  newStreak : Int
  isNewDay : Bool
  scoreAdded : Int
  message : List Char
deriving DecidableEq

/-- Outcome of the store-level operation: either the user-not-found
failure object (`success: false, reason: "User not found"`) or the
success object. -/
inductive StoreOutcome where
  | notFound
  | ok (result : StreakResult)
deriving DecidableEq

/-- Message of the same-day branch (src/db/streakLogic.js line 44). -/
def sameDayMsg (streak : Int) : List Char :=
  "Already completed today. Streak remains ".toList ++ intChars streak
    ++ ".".toList

/-- Message of the first-ever-action branch (line 51). -/
def firstActionMsg : List Char :=
  "First action ever! Streak started at 1.".toList

/-- Message of the streak-continued branch (line 57). -/
def continuedMsg (newStreak scoreAward : Int) : List Char :=
  "🔥 *Streak continued!* Your streak is now ".toList ++ intChars newStreak
    ++ " days! (Total Score: +".toList ++ intChars scoreAward ++ ")".toList

/-- Message of the streak-broken branch (line 61). -/
def brokenMsg (longest scoreAward : Int) : List Char :=
  "😭 *Streak broken!* Resetting to 1. Your longest was ".toList
    ++ intChars longest ++ " days. (Total Score: +".toList
    ++ intChars scoreAward ++ ")".toList

/-- Core state transition of `updateUserStreakAndScore`
(src/db/streakLogic.js lines 28 to 85) on an already-loaded user
document: given the document, the score award and the current clock,
produce the updated document and the returned result object. This is the
pure function the spec calls `applyDailyAction`. -/
def applyDailyAction (user : UserRec) (scoreAward : Int) (now : Int) :
    UserRec × StreakResult :=
  let todayUTC := startOfUTCDay now
  let yesterdayUTC := startOfUTCYesterday now
  if sameDayCheck user.lastActivityDate todayUTC then
    -- Same day: only totalScore is updated, streak fields stay put.
    let user1 := { user with totalScore := user.totalScore + scoreAward }
    (user1,
      { success := true
        newStreak := user.currentStreak
        isNewDay := false
        scoreAdded := scoreAward
        message := sameDayMsg user.currentStreak })
  else
    -- New day: pick the new streak value and message together, as the
    -- source does with its nested if on lastActivityDate.
    let sm : Int × List Char :=
      match user.lastActivityDate with
      | none => (1, firstActionMsg)
      | some t =>
        if yesterdayUTC ≤ t then
          (user.currentStreak + 1,
            continuedMsg (user.currentStreak + 1) scoreAward)
        else
          (1, brokenMsg user.longestStreak scoreAward)
    let user1 := { user with
      currentStreak := sm.1
      lastActivityDate := some now
      totalScore := user.totalScore + scoreAward
      gameScore := user.gameScore + scoreAward }
    let user2 :=
      if sm.1 > user1.longestStreak then { user1 with longestStreak := sm.1 }
      else user1
    (user2,
      { success := true
        newStreak := sm.1
        isNewDay := true
        scoreAdded := scoreAward
        message := sm.2 })

/-- Embedding of `User.findOne({ chatId })`: the first stored document
whose `chatId` matches. -/
def findOne (store : List UserRec) (chatId : Int) : Option UserRec :=
  store.find? (fun u => decide (u.chatId = chatId))

/-- Embedding of `document.save()`: write the document back over every
stored document with the same `chatId` (the key is declared unique). -/
def saveUser (store : List UserRec) (u : UserRec) : List UserRec :=
  store.map (fun v => if v.chatId = u.chatId then u else v)

/-- Store-level embedding of `updateUserStreakAndScore`
(src/db/streakLogic.js lines 21 to 86): look the user up, fail if absent,
otherwise apply the daily action and save the updated document. -/
def updateUserStreakAndScore (store : List UserRec) (chatId : Int)
    (scoreAward : Int) (now : Int) : StoreOutcome × List UserRec :=
  match findOne store chatId with
  | none => (StoreOutcome.notFound, store)
  | some user =>
    let r := applyDailyAction user scoreAward now
    (StoreOutcome.ok r.2, saveUser store r.1)

/-- Embedding of the guess command handler (src/index.js lines 168 to
204), restricted to its effect on the store. On the correct branch the
source calls `updateUserStreakAndScore` (which loads and saves its own
copy of the document) and then assigns `user.gameGuess = null` on the
in-memory document without ever calling `user.save()` on it, so that
assignment has no store effect and is absent here. -/
def guessHandler (store : List UserRec) (chatId : Int) (userGuess : Int)
    (now : Int) : List UserRec :=
  match findOne store chatId with
  | none => store
  | some user =>
    match user.gameGuess with
    | none => store
    | some secretNumber =>
      if userGuess < 1 ∨ userGuess > 10 then store
      else if userGuess = secretNumber then
        (updateUserStreakAndScore store chatId 5 now).2
      else store

/-- Fresh user document as created by `User.create` in src/index.js with
the schema defaults of src/models/UserModel.js (`dailyLastUsed` defaults
to `new Date(0)`, `gameScore` to 0, `gameGuess` unset). Modelled from the
spec: the initial values 0, 0, 0 and null of `totalScore`,
`currentStreak`, `longestStreak` and `lastActivityDate`, which the schema
omits (section 3 of the spec: scores start at zero, `currentStreak` is 0
only before the first action, null means never acted). -/
def freshUser (chatId : Int) (firstName : List Char)
    (username : Option (List Char)) (lastInteraction : Int) : UserRec :=
  { chatId := chatId
    firstName := firstName
    username := username
    lastInteraction := lastInteraction
    dailyLastUsed := some 0
    gameScore := 0
    gameGuess := none
    totalScore := 0
    currentStreak := 0
    longestStreak := 0
    lastActivityDate := none }

/-- Field assignments of the `$set` document in the reset handler
(src/index.js lines 242 to 254): scores and streaks to 0,
`lastActivityDate` to null, `dailyLastUsed` to `new Date(0)`, that is the
epoch timestamp, not null. -/
def resetFields (u : UserRec) : UserRec :=
  { u with
    gameScore := 0
    totalScore := 0
    currentStreak := 0
    longestStreak := 0
    lastActivityDate := none
    dailyLastUsed := some 0 }

/-- Embedding of `User.updateOne({ chatId }, { $set: ... })` for the
reset document: update the first matching document and report
MongoDB `modifiedCount`, which is 1 only when the matched document
actually changed. -/
def updateOneReset (store : List UserRec) (target : Int) :
    List UserRec × Nat :=
  match store with
  | [] => ([], 0)
  | u :: us =>
    if u.chatId = target then
      (resetFields u :: us, if resetFields u = u then 0 else 1)
    else
      let r := updateOneReset us target
      (u :: r.1, r.2)

/-- Embedding of the `/reset` handler body (src/index.js lines 241 to
260): run the update and reply with the success message exactly when
`result.modifiedCount > 0`. -/
def resetHandler (store : List UserRec) (target : Int) :
    List UserRec × Bool :=
  let r := updateOneReset store target
  (r.1, decide (r.2 > 0))

/-- Field names declared by `UserSchema` in src/models/UserModel.js. -/
def userSchemaFields : List String :=
  ["chatId", "firstName", "username", "lastInteraction", "dailyLastUsed",
   "gameScore", "gameGuess"]

/-- Field names of the UserRecord data model in section 3 of the spec. -/
def specUserRecordFields : List String :=
  ["id", "displayName", "handle", "totalScore", "gameScore",
   "currentStreak", "longestStreak", "lastActivityDate",
   "dailyRewardLastClaimed", "pendingGuess"]

/-- Descending composite key used by the MongoDB sort specification in
`getLeaderboard` (src/db/streakLogic.js lines 137 to 141):
`{ totalScore: -1, longestStreak: -1, currentStreak: -1 }`. The document
`a` may precede `b` exactly when this relation holds. -/
def lbGE (a b : UserRec) : Prop :=
  b.totalScore < a.totalScore ∨
    (a.totalScore = b.totalScore ∧
      (b.longestStreak < a.longestStreak ∨
        (a.longestStreak = b.longestStreak ∧
          b.currentStreak ≤ a.currentStreak)))

instance lbGE_dec : DecidableRel lbGE := fun a b => by
  unfold lbGE; infer_instance

instance lbGE_total : IsTotal UserRec lbGE :=
  ⟨by intro a b; unfold lbGE; omega⟩

instance lbGE_trans : IsTrans UserRec lbGE :=
  ⟨by intro a b c; unfold lbGE; omega⟩

/-- Projection applied by
`.select('firstName username totalScore longestStreak currentStreak')`
in `getLeaderboard`. -/
structure LBView where
  firstName : List Char
  username : Option (List Char)
  totalScore : Int
  longestStreak : Int
  currentStreak : Int
deriving DecidableEq

/-- Field selection of a stored document down to the leaderboard view. -/
def lbProj (u : UserRec) : LBView :=
  { firstName := u.firstName
    username := u.username
    totalScore := u.totalScore
    longestStreak := u.longestStreak
    currentStreak := u.currentStreak }

/-- The composite descending key on the projected views. -/
def lbViewGE (a b : LBView) : Prop :=
  b.totalScore < a.totalScore ∨
    (a.totalScore = b.totalScore ∧
      (b.longestStreak < a.longestStreak ∨
        (a.longestStreak = b.longestStreak ∧
          b.currentStreak ≤ a.currentStreak)))

/-- Embedding of `getLeaderboard` (src/db/streakLogic.js lines 134 to
151): sort all stored documents by the descending composite key, keep at
most `limit` of them (default 10) and project each to the selected
fields. The database sort algorithm is outside the repository; it is
modelled as any sort producing a permutation ordered by the key, here
insertion sort. The catch branch that degrades a store failure to an
empty list has no counterpart because the pure store cannot fail. -/
def getLeaderboard (store : List UserRec) (limit : Nat := 10) :
    List LBView :=
  (((store.insertionSort lbGE).take limit).map lbProj)

/-- UTF-16 code units occupied by one character, the unit JavaScript
string lengths and indices count. -/
def utf16Size (c : Char) : Nat := if c.toNat < 65536 then 1 else 2

/-- UTF-16 length of a string, as JavaScript `.length` reports it. -/
def utf16Len (s : List Char) : Nat := (s.map utf16Size).sum

/-- Embedding of JavaScript `.substring(0, n)`: keep the longest prefix
of whole characters occupying at most `n` UTF-16 code units. (When the
cut would fall inside a surrogate pair, JavaScript keeps a lone
surrogate, which is not a Unicode scalar; the model keeps neither half.
No claim depends on that character.) -/
def jsSubstring (n : Nat) : List Char → List Char
  | [] => []
  | c :: cs =>
    if utf16Size c ≤ n then c :: jsSubstring (n - utf16Size c) cs else []

/-- Embedding of JavaScript `.padEnd(n)`: append spaces up to `n` UTF-16
code units; a string already at least that long is unchanged. -/
def jsPadEnd (n : Nat) (s : List Char) : List Char :=
  s ++ List.replicate (n - utf16Len s) ' '

/-- Fixed reply for an empty or absent leaderboard
(src/db/streakLogic.js line 96). -/
def emptyLeaderboardMsg : List Char :=
  "The leaderboard is empty! Be the first to get a score! 🏅".toList

/-- Header of the leaderboard message: the title line, a blank line, the
column header line and the separator line (lines 99 to 102 of
src/db/streakLogic.js), four lines in all. -/
def lbHeader : List Char :=
  "🏆 *Global Leaderboard (Top 10)* 🏆\n\n".toList
    ++ "`Rank | Username        | Total | Streak`\n".toList
    ++ "----------------------------------------\n".toList

/-- Rank marker: medals for positions 1 to 3, the rank number followed
by a dot for positions 4 and up. -/
def rankDisplay (rank : Nat) : List Char :=
  if rank = 1 then "🥇".toList
  else if rank = 2 then "🥈".toList
  else if rank = 3 then "🥉".toList
  else natDigits rank ++ ['.']

/-- One formatted leaderboard row (lines 104 to 123 of
src/db/streakLogic.js), ending in the newline the template literal
appends. -/
def lbRow (rank : Nat) (u : LBView) : List Char :=
  let name :=
    match u.username with
    | some un => if un = [] then u.firstName else '@' :: un
    | none => u.firstName
  let displayName := jsPadEnd 15 (jsSubstring 15 name)
  let score := jsPadEnd 5 (intChars u.totalScore)
  let streak := jsPadEnd 6 (intChars u.longestStreak)
  jsPadEnd 4 (rankDisplay rank) ++ "| ".toList ++ displayName
    ++ " | ".toList ++ score ++ " | ".toList ++ streak ++ ['\n']

/-- The `forEach` loop over the rows, carrying the zero-based index. -/
def lbRows : Nat → List LBView → List Char
  | _, [] => []
  | i, u :: us => lbRow (i + 1) u ++ lbRows (i + 1) us

/-- Footer of the leaderboard message (line 125 of
src/db/streakLogic.js): a newline, so a blank line, then the legend. -/
def lbFooter : List Char :=
  "\n*Total* = Total Score | *Streak* = Longest Streak".toList

/-- Embedding of `formatLeaderboardMessage` (src/db/streakLogic.js lines
94 to 128). The source first tests `!leaderboardData`, so the input is an
optional list: `none` models a null or undefined argument. -/
def formatLeaderboardMessage (leaderboardData : Option (List LBView)) :
    List Char :=
  match leaderboardData with
  | none => emptyLeaderboardMsg
  | some l =>
    if l = [] then emptyLeaderboardMsg
    else lbHeader ++ lbRows 0 l ++ lbFooter

/-- Number of lines of a rendered text: newline count plus one. -/
def lineCount (s : List Char) : Nat := s.count '\n' + 1

/-- Number of lines the leaderboard header occupies. -/
def headerLineCount : Nat := 4

/-- Number of lines the leaderboard footer occupies: the blank line and
the legend line. -/
def footerLineCount : Nat := 2

/-! Concrete records used to instantiate the theorems below. -/

/-- Clock instant used by concrete instantiations: one hour into UTC
day 2 of the epoch. -/
def nowW : Int := 172800000 + 3600000

/-- User who never acted (all streak fields at their initial values). -/
def uFirst : UserRec :=
  { chatId := 1
    firstName := "Ann".toList
    username := none
    lastInteraction := 0
    dailyLastUsed := some 0
    gameScore := 0
    gameGuess := none
    totalScore := 0
    currentStreak := 0
    longestStreak := 0
    lastActivityDate := none }

/-- User whose last action fell on UTC day 1, yesterday relative to
`nowW`. -/
def uYesterday : UserRec :=
  { uFirst with
    chatId := 2
    totalScore := 40
    gameScore := 40
    currentStreak := 3
    longestStreak := 5
    lastActivityDate := some 90000000 }

/-- User whose last action fell on UTC day 2, the same day as `nowW`. -/
def uToday : UserRec :=
  { uFirst with
    chatId := 3
    totalScore := 40
    gameScore := 40
    currentStreak := 4
    longestStreak := 5
    lastActivityDate := some 172900000 }


/-- User with an open guessing round whose secret number is 7. -/
def uGuess : UserRec :=
  { uFirst with chatId := 5, gameGuess := some 7 }

/-- User with nonzero score, streak and date fields, for the reset
theorems. -/
def uC9 : UserRec :=
  { uFirst with
    chatId := 7
    dailyLastUsed := some 5000
    totalScore := 9
    gameScore := 3
    currentStreak := 2
    longestStreak := 2
    lastActivityDate := some 1000 }

/-- Minimal leaderboard view row. -/
def vW : LBView :=
  { firstName := "Ann".toList
    username := none
    totalScore := 0
    longestStreak := 0
    currentStreak := 0 }

/-- Store of ten identical users, enough to fill the leaderboard. -/
def lbStoreW : List UserRec := List.replicate 10 uFirst

/-! Characterization lemmas for the four branches of
`applyDailyAction`. -/

/-- Same-day branch of `applyDailyAction`: the stored document only gains
`scoreAward` on `totalScore`. -/
theorem applyDailyAction_sameDay (u : UserRec) (a n t : Int)
    (hl : u.lastActivityDate = some t) (ht : startOfUTCDay n ≤ t) :
    applyDailyAction u a n =
      ({ u with totalScore := u.totalScore + a },
        { success := true
          newStreak := u.currentStreak
          isNewDay := false
          scoreAdded := a
          message := sameDayMsg u.currentStreak }) := by
  unfold applyDailyAction sameDayCheck
  rw [hl]
  simp [ht]

/-- First-ever-action branch of `applyDailyAction`. -/
theorem applyDailyAction_firstEver (u : UserRec) (a n : Int)
    (hl : u.lastActivityDate = none) :
    applyDailyAction u a n =
      ({ u with
          currentStreak := 1
          lastActivityDate := some n
          totalScore := u.totalScore + a
          gameScore := u.gameScore + a
          longestStreak := max u.longestStreak 1 },
        { success := true
          newStreak := 1
          isNewDay := true
          scoreAdded := a
          message := firstActionMsg }) := by
  unfold applyDailyAction sameDayCheck
  rw [hl]
  simp only [Bool.false_eq_true, if_false]
  split <;> simp_all [UserRec.mk.injEq] <;> omega

/-- Streak-continued branch of `applyDailyAction`: the last activity fell
within the previous UTC day. -/
theorem applyDailyAction_continued (u : UserRec) (a n t : Int)
    (hl : u.lastActivityDate = some t) (h1 : t < startOfUTCDay n)
    (h2 : startOfUTCYesterday n ≤ t) :
    applyDailyAction u a n =
      ({ u with
          currentStreak := u.currentStreak + 1
          lastActivityDate := some n
          totalScore := u.totalScore + a
          gameScore := u.gameScore + a
          longestStreak := max u.longestStreak (u.currentStreak + 1) },
        { success := true
          newStreak := u.currentStreak + 1
          isNewDay := true
          scoreAdded := a
          message := continuedMsg (u.currentStreak + 1) a }) := by
  unfold applyDailyAction sameDayCheck
  rw [hl]
  simp only [decide_eq_true_eq, if_neg (not_le.mpr h1), if_pos h2]
  split <;> simp_all [UserRec.mk.injEq] <;> omega

/-- Streak-broken branch of `applyDailyAction`: the last activity was
before the previous UTC day. -/
theorem applyDailyAction_broken (u : UserRec) (a n t : Int)
    (hl : u.lastActivityDate = some t) (h2 : t < startOfUTCYesterday n) :
    applyDailyAction u a n =
      ({ u with
          currentStreak := 1
          lastActivityDate := some n
          totalScore := u.totalScore + a
          gameScore := u.gameScore + a
          longestStreak := max u.longestStreak 1 },
        { success := true
          newStreak := 1
          isNewDay := true
          scoreAdded := a
          message := brokenMsg u.longestStreak a }) := by
  have h1 : t < startOfUTCDay n := by
    unfold startOfUTCYesterday msPerDay at h2
    omega
  unfold applyDailyAction sameDayCheck
  rw [hl]
  simp only [decide_eq_true_eq, if_neg (not_le.mpr h1), if_neg (not_le.mpr h2)]
  split <;> simp_all [UserRec.mk.injEq] <;> omega

/-- Both branches of `applyDailyAction` build a result object with
`success: true`. -/
theorem applyDailyAction_success (u : UserRec) (a n : Int) :
    (applyDailyAction u a n).2.success = true := by
  cases hl : u.lastActivityDate with
  | none => rw [applyDailyAction_firstEver u a n hl]
  | some t =>
    rcases le_or_lt (startOfUTCDay n) t with hg | hg
    · rw [applyDailyAction_sameDay u a n t hl hg]
    · rcases le_or_lt (startOfUTCYesterday n) t with hy | hy
      · rw [applyDailyAction_continued u a n t hl hg hy]
      · rw [applyDailyAction_broken u a n t hl hy]

/-- Neither branch of `applyDailyAction` touches `gameGuess`. -/
theorem applyDailyAction_gameGuess (u : UserRec) (a n : Int) :
    (applyDailyAction u a n).1.gameGuess = u.gameGuess := by
  cases hl : u.lastActivityDate with
  | none => rw [applyDailyAction_firstEver u a n hl]
  | some t =>
    rcases le_or_lt (startOfUTCDay n) t with hg | hg
    · rw [applyDailyAction_sameDay u a n t hl hg]
    · rcases le_or_lt (startOfUTCYesterday n) t with hy | hy
      · rw [applyDailyAction_continued u a n t hl hg hy]
      · rw [applyDailyAction_broken u a n t hl hy]

/-- Neither branch of `applyDailyAction` touches `chatId`. -/
theorem applyDailyAction_chatId (u : UserRec) (a n : Int) :
    (applyDailyAction u a n).1.chatId = u.chatId := by
  cases hl : u.lastActivityDate with
  | none => rw [applyDailyAction_firstEver u a n hl]
  | some t =>
    rcases le_or_lt (startOfUTCDay n) t with hg | hg
    · rw [applyDailyAction_sameDay u a n t hl hg]
    · rcases le_or_lt (startOfUTCYesterday n) t with hy | hy
      · rw [applyDailyAction_continued u a n t hl hg hy]
      · rw [applyDailyAction_broken u a n t hl hy]

/-- Writing back a document whose key matches the lookup key yields that
document on the next lookup. -/
theorem findOne_saveUser (store : List UserRec) (w : UserRec) (cid : Int)
    (hw : w.chatId = cid) (h : findOne store cid ≠ none) :
    findOne (saveUser store w) cid = some w := by
  induction store with
  | nil => simp [findOne] at h
  | cons v vs ih =>
    by_cases hv : v.chatId = cid
    · simp [findOne, saveUser, List.find?_cons, hv, hw, hv.trans hw.symm]
    · have hvw : ¬ v.chatId = w.chatId := by rw [hw]; exact hv
      simp only [findOne, saveUser, List.map_cons, List.find?_cons] at h ⊢
      rw [if_neg hvw]
      simp only [decide_eq_true_eq, hv, if_false] at h ⊢
      exact ih h

/-- The streak high-water invariant survives one `applyDailyAction`
call. -/
theorem applyDailyAction_streak_le (u : UserRec) (a n : Int)
    (h : u.currentStreak ≤ u.longestStreak) :
    (applyDailyAction u a n).1.currentStreak ≤
      (applyDailyAction u a n).1.longestStreak := by
  cases hl : u.lastActivityDate with
  | none =>
    rw [applyDailyAction_firstEver u a n hl]
    simp <;> omega
  | some t =>
    rcases le_or_lt (startOfUTCDay n) t with hg | hg
    · rw [applyDailyAction_sameDay u a n t hl hg]
      simpa using h
    · rcases le_or_lt (startOfUTCYesterday n) t with hy | hy
      · rw [applyDailyAction_continued u a n t hl hg hy]
        simp <;> omega
      · rw [applyDailyAction_broken u a n t hl hy]
        simp <;> omega

/-- The streak high-water invariant survives any sequence of
`applyDailyAction` calls. -/
theorem foldl_applyDailyAction_streak_le (calls : List (Int × Int))
    (u : UserRec) (h : u.currentStreak ≤ u.longestStreak) :
    (calls.foldl (fun v c => (applyDailyAction v c.1 c.2).1) u).currentStreak ≤
      (calls.foldl (fun v c => (applyDailyAction v c.1 c.2).1) u).longestStreak := by
  induction calls generalizing u with
  | nil => simpa using h
  | cons c cs ih =>
    simp only [List.foldl_cons]
    exact ih _ (applyDailyAction_streak_le u c.1 c.2 h)

/-! Newline accounting for the leaderboard rendering. -/

/-- Digit characters are never the newline character. -/
theorem digitChar_ne_newline (d : Nat) : digitChar d ≠ '\n' := by
  unfold digitChar
  repeat' split
  all_goals decide

/-- Decimal renderings of natural numbers contain no newline. -/
theorem natDigitsAux_no_newline (fuel : Nat) :
    ∀ n, '\n' ∉ natDigitsAux fuel n := by
  induction fuel with
  | zero => intro n; simp [natDigitsAux]
  | succ f ih =>
    intro n
    unfold natDigitsAux
    split
    · simp
      exact fun h => digitChar_ne_newline n h.symm
    · simp [ih]
      exact fun h => digitChar_ne_newline (n % 10) h.symm

/-- Decimal renderings of natural numbers contain no newline. -/
theorem natDigits_no_newline (n : Nat) : '\n' ∉ natDigits n :=
  natDigitsAux_no_newline (n + 1) n

/-- Decimal renderings of integers contain no newline. -/
theorem intChars_no_newline (i : Int) : '\n' ∉ intChars i := by
  unfold intChars
  split
  · simp [natDigits_no_newline]
  · exact natDigits_no_newline _

/-- Truncation keeps only characters of the original string. -/
theorem jsSubstring_no_newline (s : List Char) :
    ∀ n, '\n' ∉ s → '\n' ∉ jsSubstring n s := by
  induction s with
  | nil => intro n _; simp [jsSubstring]
  | cons c cs ih =>
    intro n h
    unfold jsSubstring
    split
    · simp at h ⊢
      exact ⟨h.1, ih _ h.2⟩
    · simp

/-- Padding adds only spaces. -/
theorem jsPadEnd_no_newline (n : Nat) (s : List Char) (h : '\n' ∉ s) :
    '\n' ∉ jsPadEnd n s := by
  unfold jsPadEnd
  simp [List.mem_replicate, h]

/-- Rank markers contain no newline. -/
theorem rankDisplay_no_newline (i : Nat) : '\n' ∉ rankDisplay i := by
  unfold rankDisplay
  repeat' split
  · decide
  · decide
  · decide
  · simp [natDigits_no_newline]

/-- A string without the newline character counts zero newlines. -/
theorem count_newline_zero {s : List Char} (h : '\n' ∉ s) :
    s.count '\n' = 0 :=
  List.count_eq_zero.mpr h

/-- Each leaderboard row contributes exactly one line, provided the
rendered names carry no newline character. -/
theorem count_newline_lbRow (i : Nat) (u : LBView)
    (h1 : '\n' ∉ u.firstName) (h2 : '\n' ∉ u.username.getD []) :
    (lbRow i u).count '\n' = 1 := by
  have hname : '\n' ∉
      (match u.username with
        | some un => if un = [] then u.firstName else '@' :: un
        | none => u.firstName) := by
    cases hu : u.username with
    | none => exact h1
    | some un =>
      rw [hu] at h2
      simp only [Option.getD_some] at h2
      show '\n' ∉ if un = [] then u.firstName else '@' :: un
      by_cases he : un = []
      · rw [if_pos he]
        exact h1
      · rw [if_neg he]
        simp [h2]
  unfold lbRow
  simp only [List.count_append]
  rw [count_newline_zero (jsPadEnd_no_newline _ _ (rankDisplay_no_newline i)),
    count_newline_zero (jsPadEnd_no_newline _ _ (jsSubstring_no_newline _ _ hname)),
    count_newline_zero (jsPadEnd_no_newline _ _ (intChars_no_newline u.totalScore)),
    count_newline_zero (jsPadEnd_no_newline _ _ (intChars_no_newline u.longestStreak))]
  decide

/-- The row loop contributes one line per record. -/
theorem count_newline_lbRows (l : List LBView)
    (h : ∀ u ∈ l, '\n' ∉ u.firstName ∧ '\n' ∉ u.username.getD []) :
    ∀ i, (lbRows i l).count '\n' = l.length := by
  induction l with
  | nil => intro i; simp [lbRows]
  | cons u us ih =>
    intro i
    simp only [lbRows, List.count_append, List.length_cons]
    rw [count_newline_lbRow (i + 1) u (h u (by simp)).1 (h u (by simp)).2,
      ih (fun v hv => h v (by simp [hv])) (i + 1)]
    omega

/-! Behaviour of the reset update. -/

/-- Resetting changes no key. -/
theorem resetFields_chatId (u : UserRec) :
    (resetFields u).chatId = u.chatId := rfl

/-- The reset update never deletes a record. -/
theorem updateOneReset_length (store : List UserRec) (target : Int) :
    (updateOneReset store target).1.length = store.length := by
  induction store with
  | nil => rfl
  | cons u us ih =>
    unfold updateOneReset
    split
    · simp
    · simp [ih]

/-- Without a matching record the reset update does nothing and reports
zero modified documents. -/
theorem updateOneReset_not_found (store : List UserRec) (target : Int)
    (h : findOne store target = none) :
    updateOneReset store target = (store, 0) := by
  induction store with
  | nil => rfl
  | cons u us ih =>
    by_cases hc : u.chatId = target
    · simp [findOne, List.find?_cons, hc] at h
    · simp only [findOne, List.find?_cons, decide_eq_true_eq, hc, if_false] at h
      unfold updateOneReset
      rw [if_neg hc, ih h]

/-- The first matching record is replaced by its reset image, and a later
lookup returns that image. -/
theorem updateOneReset_found (store : List UserRec) (target : Int)
    (u : UserRec) (h : findOne store target = some u) :
    findOne (updateOneReset store target).1 target = some (resetFields u) := by
  induction store with
  | nil => simp [findOne] at h
  | cons v vs ih =>
    by_cases hc : v.chatId = target
    · have h' : v = u := by
        simpa [findOne, List.find?_cons, hc] using h
      unfold updateOneReset
      rw [if_pos hc]
      subst h'
      simp [findOne, List.find?_cons, resetFields_chatId, hc]
    · simp only [findOne, List.find?_cons, decide_eq_true_eq, hc, if_false] at h
      unfold updateOneReset
      rw [if_neg hc]
      simpa [findOne, List.find?_cons, hc] using ih h

/-- The handler reports success exactly when a matching record existed
and was actually changed by the reset. -/
theorem resetHandler_reports_modified (store : List UserRec) (target : Int) :
    (resetHandler store target).2 = true ↔
      ∃ u, findOne store target = some u ∧ resetFields u ≠ u := by
  unfold resetHandler
  induction store with
  | nil => simp [updateOneReset, findOne]
  | cons v vs ih =>
    by_cases hc : v.chatId = target
    · unfold updateOneReset
      rw [if_pos hc]
      simp only [findOne, List.find?_cons, decide_eq_true_eq, hc, if_true]
      by_cases he : resetFields v = v
      · simp [he]
      · simp [he]
    · unfold updateOneReset
      rw [if_neg hc]
      simp only [findOne, List.find?_cons, decide_eq_true_eq, hc, if_false] at ih ⊢
      simpa using ih

/-! Claim theorems. -/

/-- C1: a call of `applyDailyAction` on an existing user whose
`lastActivityDate` is null or earlier than the start of the current UTC
day sets `currentStreak` to 1 when `lastActivityDate` is null, to the
previous streak plus 1 when the last activity was at or after the start
of the previous UTC day, and to 1 otherwise; in all three sub-cases
`lastActivityDate` becomes the current time, `totalScore` and `gameScore`
each grow by the award, `longestStreak` becomes the maximum of its old
value and the new streak, and the result reports success with
`isNewDay = true` and the new streak value. -/
theorem C1_new_day_action (u : UserRec) (award now : Int)
    (hnew : sameDayCheck u.lastActivityDate (startOfUTCDay now) = false) :
    (u.lastActivityDate = none →
      (applyDailyAction u award now).1.currentStreak = 1) ∧
    (∀ t, u.lastActivityDate = some t → startOfUTCYesterday now ≤ t →
      (applyDailyAction u award now).1.currentStreak = u.currentStreak + 1) ∧
    (∀ t, u.lastActivityDate = some t → t < startOfUTCYesterday now →
      (applyDailyAction u award now).1.currentStreak = 1) ∧
    (applyDailyAction u award now).1.lastActivityDate = some now ∧
    (applyDailyAction u award now).1.totalScore = u.totalScore + award ∧
    (applyDailyAction u award now).1.gameScore = u.gameScore + award ∧
    (applyDailyAction u award now).1.longestStreak =
      max u.longestStreak (applyDailyAction u award now).1.currentStreak ∧
    (applyDailyAction u award now).2.isNewDay = true ∧
    (applyDailyAction u award now).2.newStreak =
      (applyDailyAction u award now).1.currentStreak ∧
    (applyDailyAction u award now).2.success = true := by
  cases hl : u.lastActivityDate with
  | none =>
    rw [applyDailyAction_firstEver u award now hl]
    simp
  | some t =>
    have ht : t < startOfUTCDay now := by
      unfold sameDayCheck at hnew
      rw [hl] at hnew
      simpa using hnew
    rcases le_or_lt (startOfUTCYesterday now) t with hy | hy
    · rw [applyDailyAction_continued u award now t hl ht hy]
      simp
      intro h
      omega
    · rw [applyDailyAction_broken u award now t hl hy]
      simp
      intro h
      omega

/-- Witness for C1 at the concrete continued-streak input `uYesterday`,
whose last activity fell on the previous UTC day. -/
theorem C1_new_day_action_witness :
    sameDayCheck uYesterday.lastActivityDate (startOfUTCDay nowW) = false ∧
    (applyDailyAction uYesterday 10 nowW).1.currentStreak =
      uYesterday.currentStreak + 1 :=
  ⟨by decide,
   (C1_new_day_action uYesterday 10 nowW (by decide)).2.1 90000000
     (by decide) (by decide)⟩

/-- C2: a call of `applyDailyAction` on an existing user whose
`lastActivityDate` is non-null and at or after the start of the current
UTC day adds the award to `totalScore`, leaves `currentStreak` and
`lastActivityDate` unchanged, and reports success with
`isNewDay = false` and the unchanged streak. -/
theorem C2_same_day_reentry (u : UserRec) (award now t : Int)
    (hl : u.lastActivityDate = some t) (ht : startOfUTCDay now ≤ t) :
    (applyDailyAction u award now).1.totalScore = u.totalScore + award ∧
    (applyDailyAction u award now).1.currentStreak = u.currentStreak ∧
    (applyDailyAction u award now).1.lastActivityDate = u.lastActivityDate ∧
    (applyDailyAction u award now).2.success = true ∧
    (applyDailyAction u award now).2.isNewDay = false ∧
    (applyDailyAction u award now).2.newStreak = u.currentStreak := by
  rw [applyDailyAction_sameDay u award now t hl ht]
  simp

/-- Witness for C2 at the concrete input `uToday`, whose last activity
already fell on the current UTC day. -/
theorem C2_same_day_reentry_witness :
    uToday.lastActivityDate = some 172900000 ∧
    startOfUTCDay nowW ≤ 172900000 ∧
    (applyDailyAction uToday 10 nowW).1.totalScore = uToday.totalScore + 10 ∧
    (applyDailyAction uToday 10 nowW).2.isNewDay = false :=
  ⟨by decide, by decide,
   (C2_same_day_reentry uToday 10 nowW 172900000 (by decide) (by decide)).1,
   (C2_same_day_reentry uToday 10 nowW 172900000 (by decide) (by decide)).2.2.2.2.1⟩

/-- C3: the invariant `longestStreak ≥ currentStreak` is preserved by
every `applyDailyAction` call, and holds after any sequence of such
calls starting from a fresh record. -/
theorem C3_streak_invariant :
    (∀ (u : UserRec) (award now : Int),
      u.currentStreak ≤ u.longestStreak →
      (applyDailyAction u award now).1.currentStreak ≤
        (applyDailyAction u award now).1.longestStreak) ∧
    (∀ (calls : List (Int × Int)) (chatId lastInteraction : Int)
      (firstName : List Char) (username : Option (List Char)),
      (calls.foldl (fun v c => (applyDailyAction v c.1 c.2).1)
        (freshUser chatId firstName username lastInteraction)).currentStreak ≤
      (calls.foldl (fun v c => (applyDailyAction v c.1 c.2).1)
        (freshUser chatId firstName username lastInteraction)).longestStreak) :=
  ⟨applyDailyAction_streak_le,
   fun calls _ _ _ _ =>
     foldl_applyDailyAction_streak_le calls _ (le_refl 0)⟩

/-- Witness for C3 at the concrete record `uYesterday`, whose streak
fields satisfy the invariant. -/
theorem C3_streak_invariant_witness :
    uYesterday.currentStreak ≤ uYesterday.longestStreak ∧
    (applyDailyAction uYesterday 1 nowW).1.currentStreak ≤
      (applyDailyAction uYesterday 1 nowW).1.longestStreak :=
  ⟨by decide, C3_streak_invariant.1 uYesterday 1 nowW (by decide)⟩

/-- C5 counterexample: on the same-day path the deltas differ. For the
concrete user `uToday`, whose last activity already fell on the current
UTC day, a call with award 10 adds 10 to `totalScore` but nothing to
`gameScore`. -/
theorem C5_counterexample :
    ¬ ((applyDailyAction uToday 10 nowW).1.gameScore - uToday.gameScore =
        (applyDailyAction uToday 10 nowW).1.totalScore - uToday.totalScore) := by
  decide

/-- C5 as amended: on every call `totalScore` grows by the award, while
`gameScore` grows by the award exactly on new-day calls and by nothing
on same-day re-entry. -/
theorem C5_score_lockstep_amended (u : UserRec) (award now : Int) :
    (applyDailyAction u award now).1.totalScore = u.totalScore + award ∧
    (applyDailyAction u award now).1.gameScore =
      u.gameScore +
        (if (applyDailyAction u award now).2.isNewDay then award else 0) := by
  cases hl : u.lastActivityDate with
  | none =>
    rw [applyDailyAction_firstEver u award now hl]
    simp
  | some t =>
    rcases le_or_lt (startOfUTCDay now) t with hg | hg
    · rw [applyDailyAction_sameDay u award now t hl hg]
      simp
    · rcases le_or_lt (startOfUTCYesterday now) t with hy | hy
      · rw [applyDailyAction_continued u award now t hl hg hy]
        simp
      · rw [applyDailyAction_broken u award now t hl hy]
        simp

/-- C4: the persisted schema omits the score, streak and activity-date
fields of the section 3 data model. `UserSchema` declares none of
`totalScore`, `currentStreak`, `longestStreak`, `lastActivityDate` or
`dailyRewardLastClaimed`, although all of them belong to the section 3
record shape; this evaluates the schema at each missing field. -/
theorem C4_schema_missing_fields :
    "totalScore" ∉ userSchemaFields ∧
    "currentStreak" ∉ userSchemaFields ∧
    "longestStreak" ∉ userSchemaFields ∧
    "lastActivityDate" ∉ userSchemaFields ∧
    "dailyRewardLastClaimed" ∉ userSchemaFields ∧
    "totalScore" ∈ specUserRecordFields ∧
    "currentStreak" ∈ specUserRecordFields ∧
    "longestStreak" ∈ specUserRecordFields ∧
    "lastActivityDate" ∈ specUserRecordFields ∧
    "dailyRewardLastClaimed" ∈ specUserRecordFields := by
  decide

/-- C6: the store-level operation fails with the user-not-found outcome
exactly when no record matches the id, leaves the store unchanged on
that failure, and returns a success result for every existing user. -/
theorem C6_user_not_found (store : List UserRec) (chatId award now : Int) :
    ((updateUserStreakAndScore store chatId award now).1 =
        StoreOutcome.notFound ↔ findOne store chatId = none) ∧
    (findOne store chatId = none →
      (updateUserStreakAndScore store chatId award now).2 = store) ∧
    (∀ u, findOne store chatId = some u →
      (updateUserStreakAndScore store chatId award now).1 =
        StoreOutcome.ok (applyDailyAction u award now).2 ∧
      (applyDailyAction u award now).2.success = true) := by
  unfold updateUserStreakAndScore
  cases hf : findOne store chatId with
  | none => simp
  | some u => simp [applyDailyAction_success]

/-- Witness for C6 on the one-user store containing `uFirst`. -/
theorem C6_user_not_found_witness :
    findOne [uFirst] 1 = some uFirst ∧
    (updateUserStreakAndScore [uFirst] 1 5 nowW).1 =
      StoreOutcome.ok (applyDailyAction uFirst 5 nowW).2 :=
  ⟨by decide,
   ((C6_user_not_found [uFirst] 1 5 nowW).2.2 uFirst (by decide)).1⟩

/-- C7: the leaderboard query returns at most `n` records, exactly 10
with the default limit whenever at least 10 users exist, ordered by the
descending composite key (totalScore, longestStreak, currentStreak), and
every returned row is the projection of a stored record (the store is
read, never changed). -/
theorem C7_leaderboard (store : List UserRec) (n : Nat) :
    (getLeaderboard store n).length ≤ n ∧
    (getLeaderboard store n).length = min n store.length ∧
    (10 ≤ store.length → (getLeaderboard store).length = 10) ∧
    List.Pairwise lbViewGE (getLeaderboard store n) ∧
    (∀ v ∈ getLeaderboard store n, ∃ u ∈ store, v = lbProj u) := by
  have hlen : (store.insertionSort lbGE).length = store.length :=
    (List.perm_insertionSort lbGE store).length_eq
  have hlen2 : ∀ m : Nat, (getLeaderboard store m).length = min m store.length := by
    intro m
    unfold getLeaderboard
    rw [List.length_map, List.length_take, hlen, inf_eq_min]
  refine ⟨?_, hlen2 n, ?_, ?_, ?_⟩
  · rw [hlen2 n]
    omega
  · intro h10
    rw [hlen2 10]
    omega
  · unfold getLeaderboard
    rw [List.pairwise_map]
    have hs := List.sorted_insertionSort lbGE store
    have ht := List.Pairwise.sublist (List.take_sublist n _) hs
    exact ht.imp (fun h => h)
  · intro v hv
    unfold getLeaderboard at hv
    rw [List.mem_map] at hv
    obtain ⟨u, hu, rfl⟩ := hv
    exact ⟨u, (List.perm_insertionSort lbGE store).subset
      (List.take_subset n _ hu), rfl⟩

/-- Witness for C7 on a concrete store of ten users. -/
theorem C7_leaderboard_witness :
    10 ≤ lbStoreW.length ∧ (getLeaderboard lbStoreW).length = 10 :=
  ⟨by decide, (C7_leaderboard lbStoreW 10).2.2.1 (by decide)⟩

/-- C8: the renderer returns the fixed empty-leaderboard message on an
absent or empty record list, and on a non-empty list of n records whose
rendered names carry no newline, the output has exactly the header lines
plus the footer lines plus one row line per record. -/
theorem C8_render_line_count (l : List LBView) (hne : l ≠ [])
    (hnames : ∀ u ∈ l, '\n' ∉ u.firstName ∧ '\n' ∉ u.username.getD []) :
    formatLeaderboardMessage none = emptyLeaderboardMsg ∧
    formatLeaderboardMessage (some []) = emptyLeaderboardMsg ∧
    lineCount (formatLeaderboardMessage (some l)) =
      headerLineCount + footerLineCount + l.length := by
  refine ⟨rfl, rfl, ?_⟩
  show lineCount (if l = [] then emptyLeaderboardMsg
    else lbHeader ++ lbRows 0 l ++ lbFooter) =
    headerLineCount + footerLineCount + l.length
  rw [if_neg hne]
  unfold lineCount
  simp only [List.count_append]
  rw [count_newline_lbRows l hnames 0]
  have h1 : lbHeader.count '\n' = 4 := by decide
  have h2 : lbFooter.count '\n' = 1 := by decide
  rw [h1, h2]
  unfold headerLineCount footerLineCount
  omega

/-- Witness for C8 on the one-row list containing `vW`. -/
theorem C8_render_line_count_witness :
    ([vW] ≠ [] ∧ ∀ u ∈ [vW], '\n' ∉ u.firstName ∧ '\n' ∉ u.username.getD []) ∧
    lineCount (formatLeaderboardMessage (some [vW])) =
      headerLineCount + footerLineCount + [vW].length :=
  ⟨⟨by decide, by decide⟩,
   (C8_render_line_count [vW] (by decide) (by decide)).2.2⟩

/-- C9 counterexample: resetting writes the epoch timestamp, not null,
into `dailyLastUsed`, and the handler applied to a store whose matching
record is already in the reset state reports failure even though the
record exists, because it tests `modifiedCount`, not matching. -/
theorem C9_counterexample :
    (resetFields uC9).dailyLastUsed ≠ none ∧
    (∃ u ∈ [resetFields uC9], u.chatId = 7) ∧
    (resetHandler [resetFields uC9] 7).2 = false := by
  decide

/-- C9 as amended: the reset deletes no record, does nothing without a
match, zeroes the four score and streak fields of the matched record,
nulls `lastActivityDate`, sets `dailyLastUsed` to the epoch timestamp,
and reports success exactly when a matching record existed and was
actually modified. -/
theorem C9_reset_amended (store : List UserRec) (target : Int) :
    (updateOneReset store target).1.length = store.length ∧
    (findOne store target = none → updateOneReset store target = (store, 0)) ∧
    (∀ u, findOne store target = some u →
      findOne (updateOneReset store target).1 target = some (resetFields u) ∧
      (resetFields u).totalScore = 0 ∧
      (resetFields u).gameScore = 0 ∧
      (resetFields u).currentStreak = 0 ∧
      (resetFields u).longestStreak = 0 ∧
      (resetFields u).lastActivityDate = none ∧
      (resetFields u).dailyLastUsed = some 0) ∧
    ((resetHandler store target).2 = true ↔
      ∃ u, findOne store target = some u ∧ resetFields u ≠ u) :=
  ⟨updateOneReset_length store target,
   updateOneReset_not_found store target,
   fun u hu => ⟨updateOneReset_found store target u hu,
     rfl, rfl, rfl, rfl, rfl, rfl⟩,
   resetHandler_reports_modified store target⟩

/-- Witness for C9 as amended, on the one-user store containing
`uC9`. -/
theorem C9_reset_amended_witness :
    findOne [uC9] 7 = some uC9 ∧
    findOne (updateOneReset [uC9] 7).1 7 = some (resetFields uC9) :=
  ⟨by decide, ((C9_reset_amended [uC9] 7).2.2.1 uC9 (by decide)).1⟩

/-- C10: after the correct-guess branch, the persisted record still
holds the secret number in `gameGuess`: the store ends up exactly as
`updateUserStreakAndScore` saved it, and that save never touches
`gameGuess`, because the null assignment happens on an in-memory
document that is never saved. -/
theorem C10_winning_round_not_closed (store : List UserRec)
    (chatId guess now secret : Int) (user : UserRec)
    (hf : findOne store chatId = some user)
    (hg : user.gameGuess = some secret)
    (h1 : 1 ≤ guess) (h2 : guess ≤ 10) (hc : guess = secret) :
    findOne (guessHandler store chatId guess now) chatId =
      some (applyDailyAction user 5 now).1 ∧
    (applyDailyAction user 5 now).1.gameGuess = some secret := by
  have hf' : List.find? (fun u => decide (u.chatId = chatId)) store =
      some user := hf
  have hkey : user.chatId = chatId := by
    have h := List.find?_some hf'
    simpa using h
  have hstore : guessHandler store chatId guess now =
      saveUser store (applyDailyAction user 5 now).1 := by
    unfold guessHandler updateUserStreakAndScore
    simp only [hf, hg]
    rw [if_neg (by omega : ¬ (guess < 1 ∨ guess > 10)), if_pos hc]
  constructor
  · rw [hstore]
    refine findOne_saveUser store _ chatId ?_ ?_
    · rw [applyDailyAction_chatId]
      exact hkey
    · rw [hf]
      simp
  · rw [applyDailyAction_gameGuess]
    exact hg

/-- Witness for C10 on the one-user store containing `uGuess`, whose
open round has secret number 7, with the correct guess 7. -/
theorem C10_winning_round_not_closed_witness :
    findOne [uGuess] 5 = some uGuess ∧
    uGuess.gameGuess = some 7 ∧
    findOne (guessHandler [uGuess] 5 7 nowW) 5 =
      some (applyDailyAction uGuess 5 nowW).1 ∧
    (applyDailyAction uGuess 5 nowW).1.gameGuess = some 7 :=
  ⟨by decide, by decide,
   (C10_winning_round_not_closed [uGuess] 5 7 nowW 7 uGuess
     (by decide) (by decide) (by decide) (by decide) rfl).1,
   (C10_winning_round_not_closed [uGuess] 5 7 nowW 7 uGuess
     (by decide) (by decide) (by decide) (by decide) rfl).2⟩
